import Mathlib

/-!
Verification of the nix-timemach backend (Rust) against its specification.

The embedding models the two analysis pipelines of the repository:
the standalone binary in src/backend/src/main.rs (generation lister and
set-based diff classifier) and the service module in
src/backend/src/services/nix.rs (regex-based strict lister,
current-generation resolution, and the nix-diff-delegated diff parser).

External commands are modelled by their captured results: a record with
the process exit success flag, stdout and stderr, mirroring the narrow
"run(command) -> (status, stdout, stderr)" interface both pipelines use.

String primitives of the Rust standard library (lines, trim,
split_whitespace, split, contains, trim_end_matches, starts_with) are
modelled over lists of characters.  ASCII whitespace and ASCII digits
stand in for the Unicode classes used by Rust and the regex crate; every
input appearing in the claims is ASCII, where the two coincide.
-/

namespace NixTM

/-- Whitespace as used by trim / split_whitespace and the regex class.
Modelled as the ASCII whitespace characters. -/
def isWS (c : Char) : Bool :=
  c = ' ' || c = '\t' || c = '\n' || c = '\r' || c = '\x0b' || c = '\x0c'

/-- Result of one external command invocation: exit success flag plus the
captured stdout and stderr, as in std::process::Output. -/
structure Output where
  success : Bool
  stdout : String
  stderr : String
deriving Repr, DecidableEq

/-- If the character list starts with the pattern, return the remainder;
used to model literal matching and starts_with / contains. -/
def dropPre : List Char → List Char → Option (List Char)
  | [], cs => some cs
  | _ :: _, [] => none
  | p :: ps, c :: cs => if p = c then dropPre ps cs else none

/-- Rust str::contains with a literal pattern: some position of the
haystack starts with the pattern. -/
def containsSub (pat : List Char) : List Char → Bool
  | [] => (dropPre pat []).isSome
  | c :: cs => (dropPre pat (c :: cs)).isSome || containsSub pat cs

/-- Rust str::starts_with for string patterns (on the character level;
the markers checked in the source are single ASCII characters). -/
def strStartsWith (s pat : String) : Bool :=
  (dropPre pat.data s.data).isSome

/-- Splitting on a separator predicate, keeping empty fields, as Rust
str::split does for a one-character pattern. -/
def splitPredAux (p : Char → Bool) : List Char → List Char → List (List Char)
  | [], acc => [acc.reverse]
  | c :: cs, acc =>
    if p c then acc.reverse :: splitPredAux p cs []
    else splitPredAux p cs (c :: acc)

/-- Rust str::split with a one-character pattern (empty fields kept). -/
def splitPred (p : Char → Bool) (cs : List Char) : List (List Char) :=
  splitPredAux p cs []

/-- Rust str::split_whitespace: split on whitespace and drop the empty
fields, yielding the nonempty tokens in order. -/
def rustSplitWhitespace (cs : List Char) : List (List Char) :=
  (splitPred isWS cs).filter (fun w => !w.isEmpty)

/-- Rust str::trim on a character list: drop whitespace from both ends. -/
def rustTrimL (cs : List Char) : List Char :=
  ((cs.dropWhile isWS).reverse.dropWhile isWS).reverse

/-- Rust str::trim on strings. -/
def rustTrimS (s : String) : String :=
  ⟨rustTrimL s.data⟩

/-- Helper of rustLines: split a character stream on the newline
character. -/
def splitNL (cs : List Char) : List (List Char) :=
  splitPred (fun c => c = '\n') cs

/-- Rust str::lines: split on the newline character as a terminator (a
final empty segment produced by a trailing newline is not a line) and
strip one trailing carriage return from each line. -/
def rustLines (s : String) : List String :=
  if s.data.isEmpty then []
  else
    let parts := splitNL s.data
    let parts := if parts.getLast? = some [] then parts.dropLast else parts
    parts.map (fun l => ⟨if l.getLast? = some '\r' then l.dropLast else l⟩)

/-- One step of trim_end_matches: strip one trailing copy of the pattern
when present. -/
def dropSuffixOnce (pat cs : List Char) : Option (List Char) :=
  match dropPre pat.reverse cs.reverse with
  | some r => some r.reverse
  | none => none

/-- Fuel-indexed loop of trim_end_matches; the fuel is the length of the
input, enough since each step removes the (nonempty) pattern. -/
def trimEndMatchesAux (pat : List Char) : Nat → List Char → List Char
  | 0, cs => cs
  | fuel + 1, cs =>
    match dropSuffixOnce pat cs with
    | some rest => if rest.length < cs.length then trimEndMatchesAux pat fuel rest else cs
    | none => cs

/-- Rust str::trim_end_matches with a literal pattern: repeatedly strip
the pattern from the end while it is a suffix. -/
def trimEndMatches (pat cs : List Char) : List Char :=
  trimEndMatchesAux pat cs.length cs

/-- Numeric value of an ASCII digit. -/
def digitVal (c : Char) : Nat := c.toNat - '0'.toNat

/-- Natural number denoted by a digit string, most significant first. -/
def digitsToNat (cs : List Char) : Nat :=
  cs.foldl (fun a c => a * 10 + digitVal c) 0

/-!
Model of the chrono date-time values and of the two parsing entry points
the source uses.

main.rs (parse_timestamp) calls NaiveDateTime::parse_from_str with the
format "%Y-%m-%d %H:%M:%S" and tags the result UTC via
DateTime::from_naive_utc_and_offset; that succeeds on well-formed
date-times.  services/nix.rs (parse_generations_output) instead calls
DateTime::parse_from_str with the same format; that chrono entry point
requires the input to carry a UTC offset, which the format string never
parses (it has no offset item), so it fails on every input: when the
numeric fields parse and are in range the failure is the NOT_ENOUGH
parse error, whose Display text is modelled below.

A DateTime in UTC is modelled as the plain calendar tuple; numeric
fields are scanned greedily with at least one digit (widths as in the
canonical zero-padded inputs of this repository), and calendar validity
(month range, month lengths with leap years, 24h clock) follows the
Gregorian rules chrono enforces.  Sub-second and leap-second handling
are not exercised by any input of the source and are not modelled.
-/

/-- A chrono DateTime of Utc, modelled as its calendar fields. -/
structure NaiveDateTime where
  year : Int
  month : Nat
  day : Nat
  hour : Nat
  minute : Nat
  second : Nat
deriving Repr, DecidableEq

/-- Scan up to a maximum number of leading ASCII digits. -/
def takeDigits : Nat → List Char → (List Char × List Char)
  | 0, cs => ([], cs)
  | _ + 1, [] => ([], [])
  | w + 1, c :: cs =>
    if c.isDigit then
      let (ds, r) := takeDigits w cs
      (c :: ds, r)
    else ([], c :: cs)

/-- Scan a numeric field of at least one and at most maxW digits. -/
def scanNum (maxW : Nat) (cs : List Char) : Option (Nat × List Char) :=
  let (ds, r) := takeDigits maxW cs
  if ds.isEmpty then none else some (digitsToNat ds, r)

/-- Scan the %Y field: optional sign, then digits. -/
def scanYear (cs : List Char) : Option (Int × List Char) :=
  match cs with
  | '+' :: r => (scanNum 4 r).map (fun p => ((p.1 : Int), p.2))
  | '-' :: r => (scanNum 4 r).map (fun p => (-(p.1 : Int), p.2))
  | _ => (scanNum 4 cs).map (fun p => ((p.1 : Int), p.2))

/-- Expect one literal character. -/
def expectChar (c : Char) : List Char → Option (List Char)
  | x :: r => if x = c then some r else none
  | [] => none

/-- Gregorian leap-year rule. -/
def isLeapYear (y : Int) : Bool :=
  (y % 4 == 0 && y % 100 != 0) || y % 400 == 0

/-- Length of a month in the proleptic Gregorian calendar. -/
def daysInMonth (y : Int) (m : Nat) : Nat :=
  if m = 2 then (if isLeapYear y then 29 else 28)
  else if m = 4 ∨ m = 6 ∨ m = 9 ∨ m = 11 then 30
  else 31

/-- Validity of a calendar tuple as chrono checks it. -/
def validYmdHms (y : Int) (mo d h mi s : Nat) : Bool :=
  1 ≤ mo && mo ≤ 12 && 1 ≤ d && d ≤ daysInMonth y mo &&
  h ≤ 23 && mi ≤ 59 && s ≤ 59

/-- Model of NaiveDateTime::parse_from_str with "%Y-%m-%d %H:%M:%S": the
format items in order, the blank in the format matching any run of
whitespace, with the whole input consumed and the fields in range. -/
def naiveParseYmdHms (cs : List Char) : Option NaiveDateTime := do
  let (y, r) ← scanYear cs
  let r ← expectChar '-' r
  let (mo, r) ← scanNum 2 r
  let r ← expectChar '-' r
  let (d, r) ← scanNum 2 r
  let r := r.dropWhile isWS
  let (h, r) ← scanNum 2 r
  let r ← expectChar ':' r
  let (mi, r) ← scanNum 2 r
  let r ← expectChar ':' r
  let (s, r) ← scanNum 2 r
  if r.isEmpty && validYmdHms y mo d h mi s then
    some ⟨y, mo, d, h, mi, s⟩
  else none

/-- Display text of the chrono NOT_ENOUGH parse error. -/
def chronoNotEnough : String := "input is not enough for unique date and time"

/-- Display text modelling the chrono errors raised while scanning or
range-checking the fields (their exact wording is not relied upon). -/
def chronoFieldErr : String := "input contains invalid characters"

/-- Model of DateTime::parse_from_str with "%Y-%m-%d %H:%M:%S".  This
chrono entry point builds a Parsed record from the format items and then
requires a UTC offset to produce a DateTime; the format has no offset
item, so the offset is never set and the call fails on every input.
When the fields scan and are in range the error is NOT_ENOUGH, raised
when converting the offset-less Parsed record. -/
def chronoDateTimeParseYmdHms (cs : List Char) : Except String NaiveDateTime :=
  match naiveParseYmdHms cs with
  | some _ => Except.error chronoNotEnough
  | none => Except.error chronoFieldErr

/-!
Embedding of the standalone binary, src/backend/src/main.rs: its error
enum, its Generation record (description is a plain string there, and
there is no current flag), parse_timestamp, list_generations (the
permissive lister) and get_diff (the set-based diff classifier).
-/

/-- The error enum of main.rs. -/
inductive ErrorM
  | NixCommandFailed (msg : String)
  | NixOutputParseFailed (msg : String)
  | DiffParseFailed (msg : String)
deriving Repr, DecidableEq

/-- The Generation struct of main.rs. -/
structure GenerationM where
  id : String
  timestamp : NaiveDateTime
  description : String
  profiles : List String
deriving Repr, DecidableEq

/-- The GenerationDiff struct (identical in main.rs and models/diff.rs). -/
structure GenerationDiff where
  added : List String
  removed : List String
  modified : List String
deriving Repr, DecidableEq

/-- parse_timestamp of main.rs: join date and time with a blank and parse
with NaiveDateTime::parse_from_str, tagging the result UTC. -/
def parse_timestamp (date time : String) : Except ErrorM NaiveDateTime :=
  match naiveParseYmdHms (date.data ++ ' ' :: time.data) with
  | some dt => Except.ok dt
  | none => Except.error (ErrorM.NixOutputParseFailed chronoFieldErr)

/-- The per-line body of the filter_map in list_generations of main.rs:
at least four whitespace-separated tokens; the id is the first token
with every trailing "current" stripped; the description is "(current)"
when the first token contains "current" and empty otherwise; the line is
dropped when the timestamp does not parse; profiles is derived from the
id by the fixed naming convention. -/
def mainLineToGen (line : String) : Option GenerationM :=
  let parts := rustSplitWhitespace line.data
  if parts.length ≥ 4 then
    let p0 := parts.getD 0 []
    let id : String := ⟨trimEndMatches "current".data p0⟩
    let date : String := ⟨parts.getD 1 []⟩
    let time : String := ⟨parts.getD 2 []⟩
    let description := if containsSub "current".data p0 then "(current)" else ""
    match parse_timestamp date time with
    | Except.ok ts =>
      some { id := id, timestamp := ts, description := description,
             profiles := ["/nix/var/nix/profiles/system-" ++ id ++ "-link"] }
    | Except.error _ => none
  else none

/-- The parsing stage of list_generations in main.rs: split stdout into
lines, skip the first line as a header, and keep the generations of the
lines the filter_map accepts. -/
def parse_list_generations_output (s : String) : List GenerationM :=
  ((rustLines s).drop 1).filterMap mainLineToGen

/-- list_generations of main.rs as a function of the captured result of
the nixos-rebuild list-generations command: a non-zero exit is a
NixCommandFailed carrying stderr; otherwise stdout is parsed. -/
def main_list_generations (cmdOut : Output) : Except ErrorM (List GenerationM) :=
  if !cmdOut.success then
    Except.error (ErrorM.NixCommandFailed cmdOut.stderr)
  else
    Except.ok (parse_list_generations_output cmdOut.stdout)

/-- Name extraction of the modified heuristic in get_diff of main.rs:
split on the hyphen and take the second segment (index 1), defaulting to
the empty string as unwrap_or does in the source. -/
def extractName (x : String) : String :=
  ⟨(splitPred (fun c => c = '-') x.data).getD 1 []⟩

/-- The classification core of get_diff in main.rs, lines 128-150: added
filters the target references by absence from the source, removed
conversely, and modified filters the source references by existence of a
differently-identified target reference with the same extracted name. -/
def diffClassify (from_refs to_refs : List String) : GenerationDiff :=
  { added := to_refs.filter (fun x => !from_refs.contains x)
  , removed := from_refs.filter (fun x => !to_refs.contains x)
  , modified := from_refs.filter (fun x =>
      to_refs.any (fun y => extractName y == extractName x && y != x)) }

/-- get_diff of main.rs as a function of the captured results of its two
nix-store -q --references invocations.  Faithful to the source: the exit
status of neither command is inspected; the reference lists are read off
stdout unconditionally and classified. -/
def main_get_diff (fromOut toOut : Output) : Except ErrorM GenerationDiff :=
  Except.ok (diffClassify (rustLines fromOut.stdout) (rustLines toOut.stdout))

/-!
Embedding of the service module, src/backend/src/services/nix.rs.

The error variants are the ones the module constructs at its use sites
(NixCommandError, ParseError, GenerationNotFound); the Generation record
is the one of src/backend/src/models/generation.rs, with an optional
description and a current flag.

The two regular expressions of the module are hand-compiled here.  Both
are built from character classes (digits, whitespace) and literals whose
greedy matching never needs backtracking: every greedy run is followed
by an item disjoint from the class it repeats, so the leftmost-first
semantics of the regex crate coincides with the straightforward greedy
scan implemented below.  The digit and whitespace classes are modelled
as their ASCII subsets.
-/

/-- The error variants constructed by services/nix.rs. -/
inductive ErrorS
  | NixCommandError (msg : String)
  | ParseError (msg : String)
  | GenerationNotFound (id : String)
deriving Repr, DecidableEq

/-- The Generation struct of models/generation.rs. -/
structure Generation where
  id : String
  timestamp : NaiveDateTime
  description : Option String
  profiles : List String
  current : Bool
deriving Repr, DecidableEq

/-- Scan exactly n ASCII digits. -/
def takeExactDigits : Nat → List Char → Option (List Char × List Char)
  | 0, cs => some ([], cs)
  | _ + 1, [] => none
  | n + 1, c :: cs =>
    if c.isDigit then
      (takeExactDigits n cs).map (fun p => (c :: p.1, p.2))
    else none

/-- Scan one or more whitespace characters, greedily, returning the run
and the remainder. -/
def spanWS1 : List Char → Option (List Char × List Char)
  | [] => none
  | c :: cs =>
    if isWS c then
      let p := cs.span isWS
      some (c :: p.1, p.2)
    else none

/-- The listing-line regex of parse_generations_output: anchored at both
ends, it is optional whitespace, a captured nonempty digit run (the id),
whitespace, a captured date-time of shape four digits, hyphen, two
digits, hyphen, two digits, whitespace, two digits, colon, two digits,
colon, two digits, then whitespace and the captured free-text remainder.
Returns the three captures. -/
def matchGenLine (cs : List Char) : Option (List Char × List Char × List Char) := do
  let r := cs.dropWhile isWS
  let idP := r.span (fun c => c.isDigit)
  if idP.1.isEmpty then none else do
  let (_, r) ← spanWS1 idP.2
  let (d1, r) ← takeExactDigits 4 r
  let r ← expectChar '-' r
  let (d2, r) ← takeExactDigits 2 r
  let r ← expectChar '-' r
  let (d3, r) ← takeExactDigits 2 r
  let (ws, r) ← spanWS1 r
  let (t1, r) ← takeExactDigits 2 r
  let r ← expectChar ':' r
  let (t2, r) ← takeExactDigits 2 r
  let r ← expectChar ':' r
  let (t3, r) ← takeExactDigits 2 r
  let (_, r) ← spanWS1 r
  let cap2 := d1 ++ '-' :: d2 ++ '-' :: d3 ++ ws ++ t1 ++ ':' :: t2 ++ ':' :: t3
  some (idP.1, cap2, r)

/-- Match of the unanchored pattern system-(digits)-link at the head of
the input, returning the captured digit run. -/
def matchSystemLinkAt (cs : List Char) : Option (List Char) := do
  let r ← dropPre "system-".data cs
  let p := r.span (fun c => c.isDigit)
  if p.1.isEmpty then none else do
  let _ ← dropPre "-link".data p.2
  some p.1

/-- Leftmost match of system-(digits)-link anywhere in the input, as the
unanchored captures call of get_current_generation finds it. -/
def findSystemLink : List Char → Option (List Char)
  | [] => matchSystemLinkAt []
  | c :: cs =>
    match matchSystemLinkAt (c :: cs) with
    | some ds => some ds
    | none => findSystemLink cs

/-- get_current_generation of services/nix.rs as a function of the
captured readlink result: a non-zero exit is a NixCommandError carrying
stderr; otherwise the id is the capture of the first system-id-link
match in stdout, and its absence is a ParseError. -/
def get_current_generation (readlinkOut : Output) : Except ErrorS String :=
  if !readlinkOut.success then
    Except.error (ErrorS.NixCommandError readlinkOut.stderr)
  else
    match findSystemLink readlinkOut.stdout.data with
    | some ds => Except.ok ⟨ds⟩
    | none => Except.error (ErrorS.ParseError "Failed to extract current generation ID")

/-- The per-line step of parse_generations_output: a line the regex does
not match is skipped; on a match the captured date-time is parsed with
DateTime::parse_from_str (a failure is a ParseError carrying the chrono
message) and the Generation record is built with the trimmed remainder
as description, the convention-derived profile path, and the current
flag set by comparing the id with the resolved current id. -/
def svcParseLine (curId : String) (line : String) : Except ErrorS (Option Generation) :=
  match matchGenLine line.data with
  | none => Except.ok none
  | some (idDs, cap2, cap3) =>
    match chronoDateTimeParseYmdHms cap2 with
    | Except.error e => Except.error (ErrorS.ParseError e)
    | Except.ok ts =>
      let id : String := ⟨idDs⟩
      Except.ok (some
        { id := id, timestamp := ts,
          description := some (rustTrimS ⟨cap3⟩),
          profiles := ["/nix/var/nix/profiles/system-" ++ id ++ "-link"],
          current := id == curId })

/-- The line loop of parse_generations_output, pushing parsed records
and propagating the first per-line error. -/
def svcLinesLoop (curId : String) : List String → List Generation → Except ErrorS (List Generation)
  | [], acc => Except.ok acc.reverse
  | l :: ls, acc =>
    match svcParseLine curId l with
    | Except.error e => Except.error e
    | Except.ok none => svcLinesLoop curId ls acc
    | Except.ok (some g) => svcLinesLoop curId ls (g :: acc)

/-- parse_generations_output of services/nix.rs: resolve the current
generation first (propagating its error), then parse the lines in
order.  It is a function of the raw listing text and of the captured
readlink result the resolution step consumes. -/
def parse_generations_output (readlinkOut : Output) (output : String) : Except ErrorS (List Generation) :=
  match get_current_generation readlinkOut with
  | Except.error e => Except.error e
  | Except.ok curId => svcLinesLoop curId (rustLines output) []

/-- list_generations of services/nix.rs as a function of the captured
listing command result and the readlink result: a non-zero exit of the
listing command is a NixCommandError carrying stderr; otherwise stdout
is parsed. -/
def svc_list_generations (listOut readlinkOut : Output) : Except ErrorS (List Generation) :=
  if !listOut.success then
    Except.error (ErrorS.NixCommandError listOut.stderr)
  else
    parse_generations_output readlinkOut listOut.stdout

/-- get_generation_store_path of services/nix.rs as a function of the
captured nix-env query result: a non-zero exit is a GenerationNotFound
carrying the requested id; otherwise the trimmed stdout is the path. -/
def get_generation_store_path (id : String) (cmdOut : Output) : Except ErrorS String :=
  if !cmdOut.success then
    Except.error (ErrorS.GenerationNotFound id)
  else
    Except.ok (rustTrimS cmdOut.stdout)

/-- The line loop of parse_diff_output, accumulating the three buckets
in order as the source pushes them. -/
def diffLinesLoop : List String → List String → List String → List String → GenerationDiff
  | [], a, r, m => ⟨a.reverse, r.reverse, m.reverse⟩
  | l :: ls, a, r, m =>
    let t := rustTrimS l
    if strStartsWith t "+" then diffLinesLoop ls (rustTrimS ⟨t.data.drop 1⟩ :: a) r m
    else if strStartsWith t "-" then diffLinesLoop ls a (rustTrimS ⟨t.data.drop 1⟩ :: r) m
    else if strStartsWith t "~" then diffLinesLoop ls a r (rustTrimS ⟨t.data.drop 1⟩ :: m)
    else diffLinesLoop ls a r m

/-- parse_diff_output of services/nix.rs: trim each line, classify it by
its leading marker, strip the marker and trim the remainder. -/
def parse_diff_output (output : String) : Except ErrorS GenerationDiff :=
  Except.ok (diffLinesLoop (rustLines output) [] [] [])

/-- get_diff of services/nix.rs as a function of the captured results of
its three commands: the two store-path queries (whose non-zero exits are
GenerationNotFound) and the nix-diff run (whose non-zero exit is a
NixCommandError carrying stderr), the output of which is parsed. -/
def svc_get_diff (fromId toId : String) (fromOut toOut diffOut : Output) : Except ErrorS GenerationDiff := do
  let _fromPath ← get_generation_store_path fromId fromOut
  let _toPath ← get_generation_store_path toId toOut
  if !diffOut.success then
    Except.error (ErrorS.NixCommandError diffOut.stderr)
  else
    parse_diff_output diffOut.stdout

/-!
Shared lemmas about the diff classifier.
-/

/-- Membership in the added bucket of the classifier is membership in
the target list together with absence from the source list. -/
lemma mem_added_iff (S_from S_to : List String) (x : String) :
    x ∈ (diffClassify S_from S_to).added ↔ x ∈ S_to ∧ x ∉ S_from := by
  simp [diffClassify, List.mem_filter, List.elem_iff, List.contains]

/-- Membership in the removed bucket of the classifier is membership in
the source list together with absence from the target list. -/
lemma mem_removed_iff (S_from S_to : List String) (x : String) :
    x ∈ (diffClassify S_from S_to).removed ↔ x ∈ S_from ∧ x ∉ S_to := by
  simp [diffClassify, List.mem_filter, List.elem_iff, List.contains]

/-- Membership in the modified bucket of the classifier is membership in
the source list together with a different target element of the same
extracted name. -/
lemma mem_modified_iff (S_from S_to : List String) (x : String) :
    x ∈ (diffClassify S_from S_to).modified ↔
      x ∈ S_from ∧ ∃ y, y ∈ S_to ∧ y ≠ x ∧ extractName y = extractName x := by
  simp [diffClassify, List.mem_filter, List.any_eq_true, bne_iff_ne]
  tauto

/-- C1: for every pair of dependency-identifier lists obtained from the
dependency query, the classifier used by get_diff returns added equal to
the set difference of target minus source and removed equal to source
minus target; consequently added and removed are disjoint, and when the
two lists are equal as sets both buckets are empty. -/
theorem diff_set_laws (S_from S_to : List String) :
    (∀ x, x ∈ (diffClassify S_from S_to).added ↔ x ∈ S_to ∧ x ∉ S_from) ∧
    (∀ x, x ∈ (diffClassify S_from S_to).removed ↔ x ∈ S_from ∧ x ∉ S_to) ∧
    (∀ x, ¬(x ∈ (diffClassify S_from S_to).added ∧
            x ∈ (diffClassify S_from S_to).removed)) ∧
    ((∀ x, x ∈ S_from ↔ x ∈ S_to) →
      (diffClassify S_from S_to).added = [] ∧
      (diffClassify S_from S_to).removed = []) := by
  refine ⟨mem_added_iff S_from S_to, mem_removed_iff S_from S_to, ?_, ?_⟩
  · intro x hx
    rcases hx with ⟨ha, hr⟩
    rw [mem_added_iff] at ha
    rw [mem_removed_iff] at hr
    exact ha.2 hr.1
  · intro hset
    constructor
    · rw [List.eq_nil_iff_forall_not_mem]
      intro x hx
      rw [mem_added_iff] at hx
      exact hx.2 ((hset x).mpr hx.1)
    · rw [List.eq_nil_iff_forall_not_mem]
      intro x hx
      rw [mem_removed_iff] at hx
      exact hx.2 ((hset x).mp hx.1)

/-- Witness for C1 at concrete lists. -/
theorem diff_set_laws_witness :
    "x-b-1" ∈ (diffClassify ["x-a-1"] ["x-a-1", "x-b-1"]).added ↔
      "x-b-1" ∈ ["x-a-1", "x-b-1"] ∧ "x-b-1" ∉ ["x-a-1"] :=
  (diff_set_laws ["x-a-1"] ["x-a-1", "x-b-1"]).1 "x-b-1"

/-- C2: the modified bucket of the classifier contains exactly the
elements of the source list for which some element of the target list is
a different identifier with the same extracted second hyphen-delimited
segment; in particular when both lists hold only the identical
identifier the bucket is empty even though the names match. -/
theorem modified_heuristic (S_from S_to : List String) :
    (∀ x, x ∈ (diffClassify S_from S_to).modified ↔
       x ∈ S_from ∧ ∃ y, y ∈ S_to ∧ y ≠ x ∧ extractName y = extractName x) ∧
    (diffClassify ["abc-foo-1.0"] ["abc-foo-1.0"]).modified = [] := by
  refine ⟨mem_modified_iff S_from S_to, ?_⟩
  decide

/-- Witness for C2 at concrete lists: same name, different identifier. -/
theorem modified_heuristic_witness :
    "abc-foo-1.0" ∈ (diffClassify ["abc-foo-1.0"] ["def-foo-2.0"]).modified ↔
      "abc-foo-1.0" ∈ ["abc-foo-1.0"] ∧
      ∃ y, y ∈ ["def-foo-2.0"] ∧ y ≠ "abc-foo-1.0" ∧
        extractName y = extractName "abc-foo-1.0" :=
  (modified_heuristic ["abc-foo-1.0"] ["def-foo-2.0"]).1 "abc-foo-1.0"

/-- C9: an identifier with fewer than two hyphen-delimited segments has
the empty extracted name, and such an identifier in the source list is
classified as modified whenever the target list contains a different
identifier whose extracted name is also empty. -/
theorem empty_name_collision (x : String)
    (h : (splitPred (fun c => c = '-') x.data).length < 2) :
    extractName x = "" ∧
    ∀ S_from S_to y, x ∈ S_from → y ∈ S_to → y ≠ x → extractName y = "" →
      x ∈ (diffClassify S_from S_to).modified := by
  have hname : extractName x = "" := by
    unfold extractName
    rw [List.getD_eq_default _ _ (by omega)]
  refine ⟨hname, ?_⟩
  intro S_from S_to y hxm hym hne hyname
  rw [mem_modified_iff]
  exact ⟨hxm, y, hym, hne, by rw [hyname, hname]⟩

/-- Witness for C9 at concrete identifiers without hyphens. -/
theorem empty_name_collision_witness :
    extractName "nohyphen" = "" ∧
      "nohyphen" ∈ (diffClassify ["nohyphen"] ["other"]).modified := by
  have h := empty_name_collision "nohyphen" (by decide)
  exact ⟨h.1, h.2 ["nohyphen"] ["other"] "other" (by decide) (by decide)
    (by decide) (by decide)⟩

/-!
Lemmas about the delegated diff parser and the permissive lister.
-/

/-- A list starts with a one-character pattern exactly when its head is
that character. -/
lemma dropPre_single_isSome (c : Char) (cs : List Char) :
    (dropPre [c] cs).isSome = true ↔ ∃ xs, cs = c :: xs := by
  cases cs with
  | nil => simp [dropPre]
  | cons x xs =>
    by_cases h : c = x
    · subst h
      simp [dropPre]
    · simp [dropPre, h]
      intro hx
      exact absurd hx.symm h

/-- Two distinct one-character markers cannot both start the same line. -/
lemma marker_excl {c d : Char} (t : String) (hcd : c ≠ d)
    (h : strStartsWith t ⟨[c]⟩ = true) : strStartsWith t ⟨[d]⟩ = false := by
  unfold strStartsWith at *
  rcases (dropPre_single_isSome c t.data).mp h with ⟨xs, hx⟩
  rw [Bool.eq_false_iff]
  intro hd
  rcases (dropPre_single_isSome d t.data).mp hd with ⟨ys, hy⟩
  rw [hx] at hy
  exact hcd (List.head_eq_of_cons_eq hy)

/-- The per-line contribution to the added bucket as the claim states
it: the trimmed remainder of a trimmed line starting with the plus
marker, and nothing otherwise. -/
def addedOfLine (l : String) : Option String :=
  let t := rustTrimS l
  if strStartsWith t "+" then some (rustTrimS ⟨t.data.drop 1⟩) else none

/-- The per-line contribution to the removed bucket. -/
def removedOfLine (l : String) : Option String :=
  let t := rustTrimS l
  if strStartsWith t "-" then some (rustTrimS ⟨t.data.drop 1⟩) else none

/-- The per-line contribution to the modified bucket. -/
def modifiedOfLine (l : String) : Option String :=
  let t := rustTrimS l
  if strStartsWith t "~" then some (rustTrimS ⟨t.data.drop 1⟩) else none

/-- The accumulator loop of parse_diff_output computes the three
per-line classifications appended to the reversed accumulators. -/
lemma diffLinesLoop_spec (ls : List String) (a r m : List String) :
    diffLinesLoop ls a r m =
      ⟨a.reverse ++ ls.filterMap addedOfLine,
       r.reverse ++ ls.filterMap removedOfLine,
       m.reverse ++ ls.filterMap modifiedOfLine⟩ := by
  induction ls generalizing a r m with
  | nil => simp [diffLinesLoop]
  | cons l ls ih =>
    have hpm : ("+" : String) = ⟨['+']⟩ := rfl
    have hmm : ("-" : String) = ⟨['-']⟩ := rfl
    have htm : ("~" : String) = ⟨['~']⟩ := rfl
    by_cases h1 : strStartsWith (rustTrimS l) "+"
    · have h2 : strStartsWith (rustTrimS l) "-" = false := by
        rw [hmm]; exact marker_excl _ (by decide) (hpm ▸ h1)
      have h3 : strStartsWith (rustTrimS l) "~" = false := by
        rw [htm]; exact marker_excl _ (by decide) (hpm ▸ h1)
      simp [diffLinesLoop, addedOfLine, removedOfLine, modifiedOfLine, h1, h2, h3, ih]
    · by_cases h2 : strStartsWith (rustTrimS l) "-"
      · have h3 : strStartsWith (rustTrimS l) "~" = false := by
          rw [htm]; exact marker_excl _ (by decide) (hmm ▸ h2)
        simp [diffLinesLoop, addedOfLine, removedOfLine, modifiedOfLine, h1, h2, h3, ih]
      · by_cases h3 : strStartsWith (rustTrimS l) "~"
        · simp [diffLinesLoop, addedOfLine, removedOfLine, modifiedOfLine, h1, h2, h3, ih]
        · simp [diffLinesLoop, addedOfLine, removedOfLine, modifiedOfLine, h1, h2, h3, ih]

/-- C8: the delegated diff parser classifies each line of its input by
the leading marker of the trimmed line: a plus line contributes its
marker-stripped, trimmed remainder to added, a minus line to removed, a
tilde line to modified, and every other line contributes nothing. -/
theorem delegated_diff_classification (output : String) :
    parse_diff_output output = Except.ok
      { added := (rustLines output).filterMap addedOfLine
      , removed := (rustLines output).filterMap removedOfLine
      , modified := (rustLines output).filterMap modifiedOfLine } := by
  unfold parse_diff_output
  rw [diffLinesLoop_spec]
  simp

/-- Every well-formed line yields its parse, in order: the filter of the
successfully parsed lines is pointwise related to the filterMap. -/
lemma filterMap_forall2 {α β : Type} (f : α → Option β) (L : List α) :
    List.Forall₂ (fun l g => f l = some g)
      (L.filter (fun l => (f l).isSome)) (L.filterMap f) := by
  induction L with
  | nil => constructor
  | cons a L ih =>
    cases h : f a with
    | none => simpa [List.filter_cons, List.filterMap_cons, h] using ih
    | some b =>
      simp only [List.filter_cons, List.filterMap_cons, h, Option.isSome_some, if_pos]
      exact List.Forall₂.cons h ih

/-- The length of a filterMap is the count of inputs it accepts. -/
lemma length_filterMap_eq_countP {α β : Type} (f : α → Option β) (L : List α) :
    (L.filterMap f).length = L.countP (fun l => (f l).isSome) := by
  induction L with
  | nil => rfl
  | cons a L ih => cases h : f a <;> simp [List.filterMap_cons, List.countP_cons, h, ih]

/-- A listing whose first line is itself well-formed, with a malformed
line interleaved: the permissive lister of main.rs drops the first line
unconditionally as a header. -/
def headerlessListing : String :=
  "   1   2024-02-09 10:00:00   a\nJunk\n   2   2024-02-09 11:00:00   b"

/-- Counterexample to C4 as stated: on an input with two well-formed
lines and one malformed line, the permissive lister returns one
generation, not one per well-formed line, because the first line is
skipped unconditionally as a header. -/
theorem line_tolerance_counterexample :
    (parse_list_generations_output headerlessListing).length = 1 ∧
    (rustLines headerlessListing).countP (fun l => (mainLineToGen l).isSome) = 2 ∧
    ¬((parse_list_generations_output headerlessListing).length =
      (rustLines headerlessListing).countP (fun l => (mainLineToGen l).isSome)) := by
  refine ⟨by decide, by decide, by decide⟩

/-- C4 as amended: after unconditionally dropping the first input line
as a header, the permissive lister returns exactly the generations of
the well-formed remaining lines, in the original line order, with
length equal to the number of well-formed remaining lines. -/
theorem line_tolerance_amended (s : String) :
    List.Forall₂ (fun l g => mainLineToGen l = some g)
      (((rustLines s).drop 1).filter (fun l => (mainLineToGen l).isSome))
      (parse_list_generations_output s) ∧
    (parse_list_generations_output s).length =
      ((rustLines s).drop 1).countP (fun l => (mainLineToGen l).isSome) := by
  unfold parse_list_generations_output
  exact ⟨filterMap_forall2 _ _, length_filterMap_eq_countP _ _⟩

/-!
The strict lister.  The central fact is that its timestamp parse can
never succeed: DateTime::parse_from_str demands an offset the format
never supplies, so every regex-matching line aborts the listing.  The
unit test of services/nix.rs (test_parse_generations_output) expects the
sample listing to parse into two generations, which this contradicts.
-/

/-- The chrono entry point used by the strict lister rejects every
input: the format carries no offset item. -/
lemma chrono_datetime_never_parses (cs : List Char) (dt : NaiveDateTime) :
    chronoDateTimeParseYmdHms cs ≠ Except.ok dt := by
  unfold chronoDateTimeParseYmdHms
  cases naiveParseYmdHms cs <;> simp

/-- A readlink result resolving to generation 1. -/
def okReadlink : Output := ⟨true, "/nix/var/nix/profiles/system-1-link\n", ""⟩

/-- C3 (code bug): on the well-formed listing line of the unit test of
services/nix.rs, the strict parser does not succeed: the line matches
the regex and its date-time fields denote the claimed UTC timestamp
(second conjunct, the NaiveDateTime reading of the fields), but the
parser returns the chrono NOT_ENOUGH failure as a ParseError, because
DateTime::parse_from_str requires an offset that the format
never parses.  This contradicts the unit test, which expects two parsed
generations from such lines. -/
theorem strict_roundtrip_code_bug :
    parse_generations_output okReadlink
      "   1   2024-02-09 10:00:00   nixos-22.11.20240209.123" =
      Except.error (ErrorS.ParseError chronoNotEnough) ∧
    naiveParseYmdHms "2024-02-09 10:00:00".data =
      some ⟨2024, 2, 9, 10, 0, 0⟩ :=
  ⟨rfl, rfl⟩

/-- A readlink result resolving to generation 2, as in the
current-generation scenario of the specification. -/
def resolved2Readlink : Output := ⟨true, "/nix/var/nix/profiles/system-2-link", ""⟩

/-- The two-line listing of the end-to-end scenario. -/
def twoLineListing : String :=
  "   1   2024-02-09 10:00:00   nixos-22.11.20240209.123\n   2   2024-02-09 11:00:00   nixos-22.11.20240209.456"

/-- C6 (code bug): with the indirection resolving to system-2-link the
resolution step does extract the id 2 (first conjunct), but the listing
then fails on the first well-formed line with the chrono NOT_ENOUGH
failure instead of returning the generations with generation 2 marked
current: the comparison that would set the current flag is never
reached. -/
theorem current_marking_code_bug :
    get_current_generation resolved2Readlink = Except.ok "2" ∧
    parse_generations_output resolved2Readlink twoLineListing =
      Except.error (ErrorS.ParseError chronoNotEnough) :=
  ⟨rfl, rfl⟩

/-- A readlink result whose target does not match the naming
convention. -/
def badReadlink : Output := ⟨true, "/nix/var/nix/profiles/garbage", ""⟩

/-- Counterexample to C5 as stated: when the current-generation
resolution fails (target not matching the naming convention), the
listing operation does not succeed with zero generations marked
current; it fails with the resolution error, even on an empty listing. -/
theorem degraded_current_counterexample :
    parse_generations_output badReadlink "" =
      Except.error (ErrorS.ParseError "Failed to extract current generation ID") :=
  rfl

/-- C5 as amended: a failure of the current-generation resolution step
is propagated: the listing fails with exactly the resolution error, for
every listing text. -/
theorem degraded_current_amended (readlinkOut : Output) (out : String) (e : ErrorS)
    (h : get_current_generation readlinkOut = Except.error e) :
    parse_generations_output readlinkOut out = Except.error e := by
  unfold parse_generations_output
  rw [h]

/-- Witness for the amended C5 at a concrete failing resolution. -/
theorem degraded_current_amended_witness :
    parse_generations_output badReadlink "   1   2024-02-09 10:00:00   x" =
      Except.error (ErrorS.ParseError "Failed to extract current generation ID") :=
  degraded_current_amended badReadlink _ _ rfl

/-- A failed command result with diagnostic text on stderr. -/
def failedCmd : Output := ⟨false, "", "nix-store: query failed"⟩

/-- A successful command result. -/
def okCmd : Output := ⟨true, "/nix/store/abc", ""⟩

/-- Counterexample to C7 as stated: the dependency-set queries of the
diff engine in main.rs do not fail when their commands exit non-zero;
get_diff inspects neither exit status and returns a (vacuous) diff built
from the captured stdout. -/
theorem nonzero_exit_counterexample :
    main_get_diff failedCmd failedCmd = Except.ok ⟨[], [], []⟩ :=
  rfl

/-- C7 as amended: the listing commands of both listers and the nix-diff
invocation fail on a non-zero exit with an error carrying the captured
stderr verbatim; the store-path resolution fails on a non-zero exit with
GenerationNotFound carrying the queried id, not stderr; and the two
dependency-set queries of the main diff engine are not checked at all:
that engine returns a diff whatever their exit status. -/
theorem nonzero_exit_amended (listM listS readlink store fromQ toQ nd : Output)
    (id frId toId : String) :
    (listM.success = false →
      main_list_generations listM =
        Except.error (ErrorM.NixCommandFailed listM.stderr)) ∧
    (listS.success = false →
      svc_list_generations listS readlink =
        Except.error (ErrorS.NixCommandError listS.stderr)) ∧
    (store.success = false →
      get_generation_store_path id store =
        Except.error (ErrorS.GenerationNotFound id)) ∧
    (fromQ.success = true → toQ.success = true → nd.success = false →
      svc_get_diff frId toId fromQ toQ nd =
        Except.error (ErrorS.NixCommandError nd.stderr)) ∧
    (∃ d, main_get_diff fromQ toQ = Except.ok d) := by
  refine ⟨?_, ?_, ?_, ?_, ⟨_, rfl⟩⟩
  · intro h
    simp [main_list_generations, h]
  · intro h
    simp [svc_list_generations, h]
  · intro h
    simp [get_generation_store_path, h]
  · intro hf ht hn
    simp [svc_get_diff, get_generation_store_path, hf, ht, hn, Bind.bind, Except.bind]

/-- Witness for the amended C7 at concrete command results. -/
theorem nonzero_exit_amended_witness :
    main_list_generations failedCmd =
      Except.error (ErrorM.NixCommandFailed "nix-store: query failed") ∧
    svc_list_generations failedCmd okCmd =
      Except.error (ErrorS.NixCommandError "nix-store: query failed") ∧
    get_generation_store_path "3" failedCmd =
      Except.error (ErrorS.GenerationNotFound "3") ∧
    svc_get_diff "1" "2" okCmd okCmd failedCmd =
      Except.error (ErrorS.NixCommandError "nix-store: query failed") ∧
    (∃ d, main_get_diff okCmd okCmd = Except.ok d) := by
  have h := nonzero_exit_amended failedCmd failedCmd okCmd failedCmd okCmd okCmd
    failedCmd "3" "1" "2"
  exact ⟨h.1 rfl, h.2.1 rfl, h.2.2.1 rfl, h.2.2.2.1 rfl rfl rfl, h.2.2.2.2⟩

/-!
Description invariants of the two listers.
-/

/-- Every generation the strict per-line parser produces carries a
present (some) description. -/
lemma svcParseLine_description (curId l : String) (g : Generation)
    (h : svcParseLine curId l = Except.ok (some g)) :
    g.description.isSome = true := by
  unfold svcParseLine at h
  split at h
  · exact Option.noConfusion (Except.ok.inj h)
  · split at h
    · exact Except.noConfusion h
    · cases Except.ok.inj h
      rfl

/-- Loop invariant of the strict lister: starting from an accumulator of
generations with present descriptions, every generation of a successful
result has a present description. -/
lemma svcLinesLoop_description (curId : String) (ls : List String) :
    ∀ acc : List Generation, (∀ g ∈ acc, g.description.isSome = true) →
      ∀ gens, svcLinesLoop curId ls acc = Except.ok gens →
        ∀ g ∈ gens, g.description.isSome = true := by
  induction ls with
  | nil =>
    intro acc hacc gens h g hg
    cases Except.ok.inj h
    exact hacc g (List.mem_reverse.mp hg)
  | cons l ls ih =>
    intro acc hacc gens h g hg
    unfold svcLinesLoop at h
    cases hp : svcParseLine curId l with
    | error e =>
      rw [hp] at h
      exact Except.noConfusion h
    | ok o =>
      rw [hp] at h
      cases o with
      | none => exact ih acc hacc gens h g hg
      | some g0 =>
        refine ih (g0 :: acc) ?_ gens h g hg
        intro g' hg'
        rcases List.mem_cons.mp hg' with hg' | hg'
        · subst hg'
          exact svcParseLine_description curId l g' hp
        · exact hacc g' hg'

/-- Every generation the permissive per-line parser of main.rs produces
has the sentinel or the empty description. -/
lemma mainLineToGen_description (l : String) (g : GenerationM)
    (h : mainLineToGen l = some g) :
    g.description = "(current)" ∨ g.description = "" := by
  unfold mainLineToGen at h
  dsimp only at h
  split at h
  · split at h
    · cases Option.some.inj h
      by_cases hcur :
          containsSub "current".data ((rustSplitWhitespace l.data).getD 0 []) = true
      · exact Or.inl (if_pos hcur)
      · exact Or.inr (if_neg hcur)
    · exact Option.noConfusion h
  · exact Option.noConfusion h

/-- C10: every Generation either lister produces has a non-null
description: a successful strict listing only contains generations whose
optional description is present, and every generation of the permissive
lister carries either the literal sentinel or the empty string, so the
null description permitted by the output schema is never produced. -/
theorem description_never_null :
    (∀ readlinkOut out gens,
        parse_generations_output readlinkOut out = Except.ok gens →
        gens.all (fun g => g.description.isSome) = true) ∧
    (∀ s, (parse_list_generations_output s).all
        (fun g => g.description == "(current)" || g.description == "") = true) := by
  constructor
  · intro readlinkOut out gens h
    rw [List.all_eq_true]
    intro g hg
    unfold parse_generations_output at h
    cases hc : get_current_generation readlinkOut with
    | error e =>
      rw [hc] at h
      exact Except.noConfusion h
    | ok curId =>
      rw [hc] at h
      exact svcLinesLoop_description curId (rustLines out) [] (by simp) gens h g hg
  · intro s
    rw [List.all_eq_true]
    intro g hg
    unfold parse_list_generations_output at hg
    rcases List.mem_filterMap.mp hg with ⟨l, _, hl⟩
    rcases mainLineToGen_description l g hl with h | h <;> simp [h]

/-- Witness for C10: the strict-listing conjunct discharged at a
concrete successful empty listing. -/
theorem description_never_null_witness :
    ([] : List Generation).all (fun g => g.description.isSome) = true :=
  description_never_null.1 okReadlink "" [] rfl

end NixTM
